import Mathlib

/-!
Verification of the NebulaFusion plugin runtime (manifest validation, plugin
loader, hook registry, permission/security integration, resource sandbox)
against its natural-language specification.  The Python source under
`src/src/plugins` and `src/src/core` is shallowly embedded: Python dicts
become insertion-ordered association lists, fallible operations return
`Option`/`Except`, Qt signal emissions become appended trace lists, and a
plugin instance's behaviour (whether its callback raises, what its
`deactivate` method does) is an explicit datum of the model.
-/

namespace NebulaFusion

/-- Association-list lookup, modelling Python `dict` key lookup
(`d[k]` / `k in d`).  Dictionaries built by the embedded code have unique
keys, so first-match lookup coincides with dict lookup. -/
def alookup {α : Type} : List (String × α) → String → Option α
  | [], _ => none
  | (k', v) :: rest, k => if k' = k then some v else alookup rest k

/-- Key list of an association list, modelling Python `dict` key iteration
order (insertion order). -/
def akeys {α : Type} (l : List (String × α)) : List String :=
  l.map (fun e => e.1)

/-- Pointwise value update of an association list: the embedding of an
in-place update of one dict entry (keys and their order are untouched). -/
def mapVals {α : Type} (f : String → α → α) (l : List (String × α)) :
    List (String × α) :=
  l.map (fun e => (e.1, f e.1 e.2))

/-- Python `d[k] = v`: overwrites in place if `k` is present (keeping its
position), otherwise appends the new binding. -/
def aupsert {α : Type} (l : List (String × α)) (k : String) (v : α) :
    List (String × α) :=
  if l.any (fun e => decide (e.1 = k)) then
    l.map (fun e => if e.1 = k then (k, v) else e)
  else l ++ [(k, v)]

/-- Python `str.startswith`, modelled as code-point-list prefix. -/
def strStartsWith (s pre : String) : Bool :=
  pre.data.isPrefixOf s.data

theorem alookup_mapVals {α : Type} (f : String → α → α)
    (l : List (String × α)) (k : String) :
    alookup (mapVals f l) k = (alookup l k).map (f k) := by
  induction l with
  | nil => rfl
  | cons e rest ih =>
    simp only [mapVals, List.map_cons, alookup]
    by_cases h : e.1 = k
    · subst h; simp
    · simp only [h, if_false]
      exact ih

theorem akeys_mapVals {α : Type} (f : String → α → α) (l : List (String × α)) :
    akeys (mapVals f l) = akeys l := by
  induction l with
  | nil => rfl
  | cons e rest ih =>
    simp only [mapVals, akeys, List.map_cons] at *
    exact congrArg _ ih

theorem alookup_eq_none_iff {α : Type} (l : List (String × α)) (k : String) :
    alookup l k = none ↔ k ∉ akeys l := by
  induction l with
  | nil => simp [alookup, akeys]
  | cons e rest ih =>
    by_cases h : e.1 = k
    · subst h
      simp [alookup, akeys]
    · simp only [alookup, h, if_false, akeys, List.map_cons, List.mem_cons]
      simp only [akeys] at ih
      rw [ih]
      constructor
      · intro hk hor
        rcases hor with h1 | h2
        · exact h h1.symm
        · exact hk h2
      · intro hk h2
        exact hk (Or.inr h2)

theorem alookup_append_self {α : Type} (l : List (String × α)) (k : String)
    (v : α) (h : alookup l k = none) :
    alookup (l ++ [(k, v)]) k = some v := by
  induction l with
  | nil => simp [alookup]
  | cons e rest ih =>
    simp only [alookup] at h ⊢
    by_cases hk : e.1 = k
    · simp [hk] at h
    · simp only [hk, if_false] at h ⊢
      exact ih h

theorem aupsert_of_alookup_none {α : Type} (l : List (String × α)) (k : String)
    (v : α) (h : alookup l k = none) :
    aupsert l k v = l ++ [(k, v)] := by
  have hmem : k ∉ akeys l := (alookup_eq_none_iff l k).1 h
  have hany : l.any (fun e => decide (e.1 = k)) = false := by
    rw [List.any_eq_false]
    intro e he
    simp only [decide_eq_true_eq]
    intro hek
    exact hmem (hek ▸ List.mem_map_of_mem (fun x => x.1) he)
  simp [aupsert, hany]

theorem strData_append (a b : String) : (a ++ b).data = a.data ++ b.data := by
  cases a; cases b; rfl

theorem isPrefixOf_append_self (l t : List Char) :
    l.isPrefixOf (l ++ t) = true := by
  induction l with
  | nil => cases t <;> rfl
  | cons c cs ih => simp [List.isPrefixOf, ih]

theorem strStartsWith_append (a b : String) :
    strStartsWith (a ++ b) a = true := by
  simp only [strStartsWith, strData_append]
  exact isPrefixOf_append_self a.data b.data

/-!
## Manifest validation

Embedding of `PluginLoader._validate_manifest` from
`src/src/plugins/plugin_loader.py`.  A parsed JSON manifest is an
association list of keys to JSON values; only the shapes the validator
inspects (strings, lists, anything else) are distinguished.
-/

/-- A parsed JSON value as far as `_validate_manifest` inspects it. -/
inductive JValue where
  | str (s : String)
  | jlist (xs : List JValue)
  | other

/-- A parsed `manifest.json`: a JSON object. -/
abbrev Manifest := List (String × JValue)

/-- The `required_fields` list of `_validate_manifest`, in source order. -/
def requiredFields : List String :=
  ["id", "name", "version", "author", "description"]

/-- The fixed `valid_permissions` whitelist of `_validate_manifest`. -/
def validPermissions : List String :=
  ["tabs", "bookmarks", "history", "downloads", "cookies", "storage",
   "webRequest", "notifications", "contextMenus", "clipboardRead",
   "clipboardWrite", "toolbar"]

/-- Python `isinstance(v, str) and v` (truthiness of a string is
non-emptiness): the test applied to id, name, version and author. -/
def isNonEmptyStr : Option JValue → Bool
  | some (JValue.str s) => !(s == "")
  | _ => false

/-- Python `isinstance(v, str)`: the only test applied to `description`. -/
def isStrVal : Option JValue → Bool
  | some (JValue.str _) => true
  | _ => false

/-- The per-element loop over `manifest["permissions"]`: raises on the first
element that is not a string or not in the whitelist. -/
def checkPermList : List JValue → Except String Unit
  | [] => Except.ok ()
  | JValue.str s :: rest =>
      if s ∈ validPermissions then checkPermList rest
      else Except.error ("Invalid permission: " ++ s)
  | _ :: _ => Except.error "Permission must be a string"

/-- Embedding of `PluginLoader._validate_manifest`: raises `ValueError`
(here: returns `Except.error`) on the first violation, in source order —
presence of the five required fields, then id/name/version/author being
non-empty strings, then description being a string, then the optional
permissions list. -/
def validateManifest (m : Manifest) : Except String Unit :=
  match requiredFields.find? (fun f => (alookup m f).isNone) with
  | some f => Except.error ("Missing required field in manifest: " ++ f)
  | none =>
    if !isNonEmptyStr (alookup m "id") then
      Except.error "Plugin ID must be a non-empty string"
    else if !isNonEmptyStr (alookup m "name") then
      Except.error "Plugin name must be a non-empty string"
    else if !isNonEmptyStr (alookup m "version") then
      Except.error "Plugin version must be a non-empty string"
    else if !isNonEmptyStr (alookup m "author") then
      Except.error "Plugin author must be a non-empty string"
    else if !isStrVal (alookup m "description") then
      Except.error "Plugin description must be a string"
    else
      match alookup m "permissions" with
      | none => Except.ok ()
      | some (JValue.jlist ps) => checkPermList ps
      | some _ => Except.error "Plugin permissions must be a list"

/-- Well-formedness as the code actually enforces it: the five required
fields present, id/name/version/author non-empty strings, description any
string (an empty description is accepted), and permissions, if present, a
list of whitelisted permission strings. -/
def manifestWellFormed (m : Manifest) : Prop :=
  isNonEmptyStr (alookup m "id") = true ∧
  isNonEmptyStr (alookup m "name") = true ∧
  isNonEmptyStr (alookup m "version") = true ∧
  isNonEmptyStr (alookup m "author") = true ∧
  isStrVal (alookup m "description") = true ∧
  (match alookup m "permissions" with
   | none => True
   | some (JValue.jlist ps) => checkPermList ps = Except.ok ()
   | some _ => False)

theorem validateManifest_ok_iff (m : Manifest) :
    validateManifest m = Except.ok () ↔ manifestWellFormed m := by
  unfold validateManifest manifestWellFormed
  constructor
  · intro h
    match hfind : requiredFields.find? (fun f => (alookup m f).isNone) with
    | some f => rw [hfind] at h; exact absurd h (by simp)
    | none =>
      rw [hfind] at h
      by_cases h1 : isNonEmptyStr (alookup m "id") = true
      · by_cases h2 : isNonEmptyStr (alookup m "name") = true
        · by_cases h3 : isNonEmptyStr (alookup m "version") = true
          · by_cases h4 : isNonEmptyStr (alookup m "author") = true
            · by_cases h5 : isStrVal (alookup m "description") = true
              · refine ⟨h1, h2, h3, h4, h5, ?_⟩
                simp only [h1, h2, h3, h4, h5, Bool.not_true, Bool.false_eq_true,
                  if_false] at h
                match hperm : alookup m "permissions" with
                | none => trivial
                | some (JValue.str s) => rw [hperm] at h; exact absurd h (by simp)
                | some (JValue.jlist ps) => rw [hperm] at h; exact h
                | some JValue.other => rw [hperm] at h; exact absurd h (by simp)
              · simp [h1, h2, h3, h4, h5] at h
            · simp [h1, h2, h3, h4] at h
          · simp [h1, h2, h3] at h
        · simp [h1, h2] at h
      · simp [h1] at h
  · rintro ⟨h1, h2, h3, h4, h5, hperm⟩
    have hfind : requiredFields.find? (fun f => (alookup m f).isNone) = none := by
      rw [List.find?_eq_none]
      intro f hf
      simp only [requiredFields, List.mem_cons, List.not_mem_nil, or_false] at hf
      rcases hf with rfl | rfl | rfl | rfl | rfl
      · cases hl : alookup m "id" <;> simp_all [isNonEmptyStr]
      · cases hl : alookup m "name" <;> simp_all [isNonEmptyStr]
      · cases hl : alookup m "version" <;> simp_all [isNonEmptyStr]
      · cases hl : alookup m "author" <;> simp_all [isNonEmptyStr]
      · cases hl : alookup m "description" <;> simp_all [isStrVal]
    rw [hfind]
    simp only [h1, h2, h3, h4, h5, Bool.not_true, Bool.false_eq_true, if_false]
    match hp : alookup m "permissions" with
    | none => rfl
    | some (JValue.str s) => rw [hp] at hperm; exact absurd hperm (by simp)
    | some (JValue.jlist ps) => rw [hp] at hperm; exact hperm
    | some JValue.other => rw [hp] at hperm; exact absurd hperm (by simp)

/-- C3 counterexample: a manifest whose `description` is the empty string —
all other required fields are non-empty and the permissions are whitelisted —
is accepted by `_validate_manifest`, although the claim says validation must
fail on an empty required field.  The code only checks that `description`
is a string (`isinstance(..., str)`), never that it is non-empty. -/
theorem validate_accepts_empty_description :
    validateManifest
      [("id", JValue.str "p1"), ("name", JValue.str "P One"),
       ("version", JValue.str "1.0.0"), ("author", JValue.str "A"),
       ("description", JValue.str ""),
       ("permissions", JValue.jlist [JValue.str "tabs"])] = Except.ok () := by
  rfl

/-- C3 (amended): validation succeeds exactly on manifests whose five
required fields are present with id, name, version and author non-empty
strings, description any string (possibly empty), and whose permissions,
when present, form a list drawn from the fixed whitelist; it fails fast,
reporting the first missing required field in source order before any other
check. -/
theorem validateManifest_spec :
    (∀ m : Manifest, validateManifest m = Except.ok () ↔ manifestWellFormed m) ∧
    (∀ m : Manifest, alookup m "id" = none →
      validateManifest m = Except.error "Missing required field in manifest: id") := by
  constructor
  · exact validateManifest_ok_iff
  · intro m h
    unfold validateManifest
    have : requiredFields.find? (fun f => (alookup m f).isNone) = some "id" := by
      simp [requiredFields, List.find?, h]
    rw [this]
    rfl

/-- Witness for the C3 amended theorem: a concrete well-formed manifest is
accepted, and a concrete manifest missing `id` is rejected with the
missing-field error. -/
theorem validateManifest_spec_witness :
    validateManifest
      [("id", JValue.str "w"), ("name", JValue.str "W"),
       ("version", JValue.str "1"), ("author", JValue.str "a"),
       ("description", JValue.str "d")] = Except.ok () ∧
    validateManifest [("name", JValue.str "W")] =
      Except.error "Missing required field in manifest: id" :=
  ⟨(validateManifest_spec.1 _).2 (by
      refine ⟨rfl, rfl, rfl, rfl, rfl, ?_⟩
      simp [alookup]),
   validateManifest_spec.2 _ rfl⟩

/-!
## Resource sandbox: file access gate

Embedding of `PluginSandbox.log_file_access` and
`PluginSandbox._check_file_access_permission` from
`src/src/plugins/sandbox.py`.  `os.path.expanduser` is modelled for the
paths the code uses (a leading `~` replaced by the home directory);
`os.path.abspath` is the identity on the already-absolute normalized paths
the model works with.  Wall-clock timestamps in the access log are not
modelled.
-/

/-- Python `os.path.expanduser`: a leading `~` is replaced by the home
directory. -/
def expandUser (home p : String) : String :=
  if strStartsWith p "~" then home ++ String.mk (p.data.drop 1) else p

/-- The default `security_plugin_file_access_paths` setting read by the
sandbox constructor. -/
def defaultFileAccessPaths : List String := ["~/.nebulafusion/plugins"]

/-- The fixed `sensitive_paths` blacklist inside
`_check_file_access_permission`. -/
def sensitivePaths : List String :=
  ["/etc/passwd", "/etc/shadow", "~/.ssh", "~/.nebulafusion/settings.json"]

/-- The write-mode test `mode in ("w", "a", "w+", "a+")`. -/
def isWriteMode (mode : String) : Bool :=
  mode == "w" || mode == "a" || mode == "w+" || mode == "a+"

/-- The allow-list loop: the normalized path starts with some normalized
allow-listed root. -/
def pathAllowed (fileAccessPaths : List String) (home path : String) : Bool :=
  fileAccessPaths.any fun ap =>
    strStartsWith (expandUser home path) (expandUser home ap)

/-- The sensitive-path loop: the normalized path starts with some
normalized blacklisted path. -/
def pathSensitive (home path : String) : Bool :=
  sensitivePaths.any fun sp =>
    strStartsWith (expandUser home path) (expandUser home sp)

/-- Embedding of `PluginSandbox._check_file_access_permission`: a write
outside the allow-listed roots is denied; any access to a blacklisted
sensitive path is denied unless the path is under an allowed root;
everything else is permitted. -/
def checkFileAccessPermission (fileAccessPaths : List String)
    (home path mode : String) : Bool :=
  let allowed := pathAllowed fileAccessPaths home path
  if isWriteMode mode && !allowed then false
  else if pathSensitive home path && !allowed then false
  else true

/-- The mutable per-plugin state of `PluginSandbox` that `log_file_access`
touches: the bounded file-access log and the `file_access` usage counter. -/
structure SandboxState where
  fileAccessLog : List (String × String) := []
  fileAccessCount : Nat := 0

/-- Embedding of `PluginSandbox.log_file_access`: record the access in the
log and the usage counter, then return the verdict of
`_check_file_access_permission`. -/
def logFileAccess (fileAccessPaths : List String) (home : String)
    (st : SandboxState) (path mode : String) : Bool × SandboxState :=
  let st' : SandboxState :=
    { st with
      fileAccessLog := st.fileAccessLog ++ [(path, mode)],
      fileAccessCount := st.fileAccessCount + 1 }
  (checkFileAccessPermission fileAccessPaths home path mode, st')

/-- C5: `log_file_access` denies a write to any path outside the
allow-listed roots, permits reads and writes to paths under an allow-listed
root, and denies every access — in particular a read — to a path under the
fixed sensitive-path blacklist when that path is not under an allowed
root. -/
theorem log_file_access_policy (fileAccessPaths : List String)
    (home path mode : String) (st : SandboxState) :
    (isWriteMode mode = true → pathAllowed fileAccessPaths home path = false →
      (logFileAccess fileAccessPaths home st path mode).1 = false) ∧
    (pathAllowed fileAccessPaths home path = true →
      (logFileAccess fileAccessPaths home st path mode).1 = true) ∧
    (pathSensitive home path = true →
      pathAllowed fileAccessPaths home path = false →
      (logFileAccess fileAccessPaths home st path mode).1 = false) := by
  refine ⟨?_, ?_, ?_⟩
  · intro hw hna
    simp [logFileAccess, checkFileAccessPermission, hw, hna]
  · intro ha
    simp [logFileAccess, checkFileAccessPermission, ha]
  · intro hs hna
    simp [logFileAccess, checkFileAccessPermission, hs, hna]

/-- Witness for C5 at concrete inputs with home `/home/u` and the default
allow-listed root: a write to `/tmp/evil` is denied, a write inside the
plugins root is permitted, and a read of `/etc/passwd` is denied. -/
theorem log_file_access_policy_witness :
    (logFileAccess defaultFileAccessPaths "/home/u" {} "/tmp/evil" "w").1 = false ∧
    (logFileAccess defaultFileAccessPaths "/home/u" {}
      "/home/u/.nebulafusion/plugins/data.txt" "w").1 = true ∧
    (logFileAccess defaultFileAccessPaths "/home/u" {} "/etc/passwd" "r").1 = false :=
  ⟨(log_file_access_policy defaultFileAccessPaths "/home/u" "/tmp/evil" "w" {}).1
      (by decide) (by decide),
   (log_file_access_policy defaultFileAccessPaths "/home/u"
      "/home/u/.nebulafusion/plugins/data.txt" "w" {}).2.1 (by decide),
   (log_file_access_policy defaultFileAccessPaths "/home/u" "/etc/passwd" "r"
      {}).2.2 (by decide) (by decide)⟩

/-!
## Security integration: resource-limit enforcement

Embedding of `SecurityIntegration._on_resource_limit_exceeded` from
`src/src/core/security_integration.py`.  The handler always re-emits the
report as a `security_violation` signal and escalates to
`plugin_manager.disable_plugin` only for a `cpu_percent` report whose value
exceeds the hard-coded threshold 50.  The sandbox reads the configured CPU
limit as setting `security_plugin_cpu_percent` with default 10, so the
hard threshold is 5 times the default configured limit.  Signal emissions
and disable requests are modelled as appended trace lists; the formatted
message text of the signal is abstracted to its event-type tag.
-/

/-- Trace state of the security integration: emitted `security_violation`
signals (plugin id, event type) and `disable_plugin` requests issued to the
plugin manager. -/
structure SecIntState where
  violations : List (String × String) := []
  disableRequests : List String := []

/-- The default `security_plugin_cpu_percent` setting read by the sandbox
constructor. -/
def defaultCpuPercentLimit : ℚ := 10

/-- The multiple of the default configured CPU limit at which the handler's
hard-coded threshold (50) sits. -/
def cpuDisableMultiple : ℚ := 5

/-- Embedding of `SecurityIntegration._on_resource_limit_exceeded`: emit a
`security_violation` signal for every report, and issue a `disable_plugin`
request only when the resource is `cpu_percent` and the value exceeds the
hard threshold 50. -/
def onResourceLimitExceeded (st : SecIntState)
    (pluginId resourceName : String) (value : ℚ) : SecIntState :=
  let st1 : SecIntState :=
    { st with
      violations := st.violations ++ [(pluginId, "resource_limit_exceeded")] }
  if resourceName = "cpu_percent" ∧ value > 50 then
    { st1 with disableRequests := st1.disableRequests ++ [pluginId] }
  else st1

/-- A resource-limit-exceeded report: (plugin id, resource name, value). -/
abbrev ResourceReport := String × String × ℚ

/-- A report that triggers automatic disablement: a CPU breach beyond
`cpuDisableMultiple` times the default configured CPU limit. -/
def isCpuHardBreach (r : ResourceReport) : Bool :=
  r.2.1 == "cpu_percent" &&
    decide (r.2.2 > cpuDisableMultiple * defaultCpuPercentLimit)

/-- Handling a sequence of resource-limit-exceeded reports in order. -/
def processReports (st : SecIntState) (reports : List ResourceReport) :
    SecIntState :=
  reports.foldl (fun s r => onResourceLimitExceeded s r.1 r.2.1 r.2.2) st

theorem onResourceLimitExceeded_disableRequests (st : SecIntState)
    (pluginId resourceName : String) (value : ℚ) :
    (onResourceLimitExceeded st pluginId resourceName value).disableRequests =
      st.disableRequests ++
        (if isCpuHardBreach (pluginId, resourceName, value) then [pluginId]
         else []) := by
  simp only [onResourceLimitExceeded, isCpuHardBreach, cpuDisableMultiple,
    defaultCpuPercentLimit]
  by_cases h : resourceName = "cpu_percent" ∧ value > 50
  · have hb : (resourceName == "cpu_percent") = true := by
      simp [h.1]
    have hv : (decide (value > 5 * 10) : Bool) = true := by
      simp only [decide_eq_true_eq]
      have : (5 : ℚ) * 10 = 50 := by norm_num
      rw [this]
      exact h.2
    simp [h, hb, hv]
  · rw [if_neg h]
    have : ((resourceName == "cpu_percent") &&
        decide (value > (5 : ℚ) * 10)) = false := by
      rw [Bool.and_eq_false_iff]
      by_cases hr : resourceName = "cpu_percent"
      · right
        simp only [decide_eq_false_iff_not, not_lt]
        by_contra hv
        push_neg at hv
        have : (5 : ℚ) * 10 = 50 := by norm_num
        exact h ⟨hr, by rw [← this]; exact hv⟩
      · left
        simp [hr]
    simp [this]

theorem processReports_disableRequests (st : SecIntState)
    (reports : List ResourceReport) :
    (processReports st reports).disableRequests =
      st.disableRequests ++ (reports.filter isCpuHardBreach).map (fun r => r.1) := by
  induction reports generalizing st with
  | nil => simp [processReports]
  | cons r rest ih =>
    have hstep := onResourceLimitExceeded_disableRequests st r.1 r.2.1 r.2.2
    show (processReports (onResourceLimitExceeded st r.1 r.2.1 r.2.2) rest).disableRequests = _
    rw [ih, hstep]
    by_cases hb : isCpuHardBreach r
    · simp [List.filter, hb]
    · simp [List.filter, hb]

/-- C2: over any sequence of resource-limit-exceeded reports, automatic
disable requests are issued exactly for the CPU reports whose value exceeds
`cpuDisableMultiple * defaultCpuPercentLimit` (the hard-coded 50, five
times the default configured `cpu_percent` limit of 10); a `memory_mb` or
`network_requests_per_minute` report never triggers disablement and is only
re-emitted as a `security_violation` signal. -/
theorem resource_enforcement_only_cpu (st : SecIntState)
    (reports : List ResourceReport) (pluginId resourceName : String) (value : ℚ) :
    ((processReports st reports).disableRequests =
      st.disableRequests ++ (reports.filter isCpuHardBreach).map (fun r => r.1)) ∧
    (∀ r ∈ reports, r.2.1 = "memory_mb" ∨ r.2.1 = "network_requests_per_minute" →
      isCpuHardBreach r = false) ∧
    (resourceName = "memory_mb" ∨ resourceName = "network_requests_per_minute" →
      (onResourceLimitExceeded st pluginId resourceName value).disableRequests =
          st.disableRequests ∧
        (onResourceLimitExceeded st pluginId resourceName value).violations =
          st.violations ++ [(pluginId, "resource_limit_exceeded")]) := by
  refine ⟨processReports_disableRequests st reports, ?_, ?_⟩
  · intro r _ hr
    have : ¬ r.2.1 = "cpu_percent" := by
      rcases hr with h | h <;> simp [h]
    simp [isCpuHardBreach, this]
  · intro hres
    have hne : ¬ (resourceName = "cpu_percent" ∧ value > 50) := by
      rintro ⟨hc, _⟩
      rcases hres with h | h <;> simp [h] at hc
    constructor
    · simp [onResourceLimitExceeded, hne]
    · simp [onResourceLimitExceeded, hne]

/-- Witness for C2: a memory report and a network report leave the disable
trace empty; a CPU report at 60 (beyond 5 × 10) issues exactly one disable
request. -/
theorem resource_enforcement_only_cpu_witness :
    (processReports {} [("p1", "memory_mb", 500), ("p1", "cpu_percent", 60),
        ("p2", "network_requests_per_minute", 120)]).disableRequests = ["p1"] ∧
    (onResourceLimitExceeded {} "p3" "memory_mb" 500).disableRequests = [] := by
  constructor
  · rw [(resource_enforcement_only_cpu {} [("p1", "memory_mb", 500),
      ("p1", "cpu_percent", 60), ("p2", "network_requests_per_minute", 120)]
      "p3" "memory_mb" 500).1]
    norm_num [isCpuHardBreach, cpuDisableMultiple, defaultCpuPercentLimit,
      List.filter]
    rfl
  · exact ((resource_enforcement_only_cpu {} [] "p3" "memory_mb" 500).2.2
      (Or.inl rfl)).1

/-!
## Hook registry, plugin lifecycle, loader and permission checking

Embedding of `HookRegistry` (`src/src/plugins/hook_registry.py`),
`PluginLoader` (`src/src/plugins/plugin_loader.py`),
`PluginManager.disable_plugin` (`src/src/plugins/plugin_manager.py`) and
`SecurityIntegration.check_permission`
(`src/src/core/security_integration.py`).

A plugin instance is arbitrary third-party code; the model captures the
two behaviours the embedded methods observe: whether a registered hook
callback returns normally or raises, and what the instance's `deactivate`
method does (the `PluginBase` default returns `True` and touches nothing;
the sample plugins' `deactivate` calls `unregister_all_hooks` and returns
`True`; a plugin may also return `False` or raise).  Qt signal emissions
are modelled as appended trace lists, as is the sequence of callback
invocations performed by `trigger_hook`.
-/

/-- Observable behaviour of a registered hook callback. -/
inductive CallbackSpec where
  | ok
  | raises
deriving DecidableEq

/-- Observable behaviour of a plugin instance's `deactivate` method. -/
inductive DeactivateSpec where
  | plain
  | unregisterAll
  | returnsFalse
  | raisesExc
deriving DecidableEq

/-- The inner dict of one hook: plugin id to callback, insertion-ordered. -/
abbrev HookEntries := List (String × CallbackSpec)

/-- `HookRegistry._hooks`: hook name to inner dict. -/
abbrev HookTable := List (String × HookEntries)

/-- The `available_hooks` list from `HookRegistry.__init__`, in source
order. -/
def availableHooks : List String :=
  ["onBrowserStart", "onBrowserExit", "onProfileCreated",
   "onTabCreated", "onTabClosed", "onTabSelected", "onTabTitleChanged",
   "onTabUrlChanged",
   "onPageLoading", "onPageLoaded",
   "onUrlChanged",
   "onDownloadStart", "onDownloadProgress", "onDownloadComplete",
   "onDownloadError", "onDownloadCanceled", "onDownloadPaused",
   "onDownloadResumed", "onDownloadsCleared", "onDownloadRemoved",
   "onBookmarkAdded", "onBookmarkRemoved", "onBookmarkUpdated",
   "onBookmarkFolderAdded", "onBookmarkFolderRemoved",
   "onBookmarkFolderRenamed", "onBookmarksImported", "onBookmarksExported",
   "onHistoryAdded", "onHistoryRemoved", "onHistoryCleared",
   "onCookieAdded", "onCookieRemoved", "onCookiesCleared",
   "onContextMenu",
   "onToolbarCreated", "onStatusBarCreated", "onAddressBarCreated",
   "onSettingsChanged", "onThemeChanged",
   "onRealityAugmentation", "onCollaborativeSession", "onContentTransform",
   "onTimeTravelSnapshot", "onDimensionalTabChange", "onVoiceCommand"]

/-- `HookRegistry.initialize`: every available hook gets an empty inner
dict. -/
def initHookTable : HookTable :=
  availableHooks.map (fun h => (h, []))

/-- Embedding of `HookRegistry.register_hook`: unknown hook names are
rejected with `False` and nothing is stored; otherwise the callback is
stored under (hook, plugin), overwriting in place. -/
def registerHook (t : HookTable) (hookName pluginId : String)
    (cb : CallbackSpec) : Bool × HookTable :=
  match alookup t hookName with
  | none => (false, t)
  | some _ =>
    (true, mapVals (fun h es => if h = hookName then aupsert es pluginId cb else es) t)

/-- Embedding of `HookRegistry.unregister_hook`: `False` if the hook name
is unknown or the plugin has no entry; otherwise the entry is deleted. -/
def unregisterHook (t : HookTable) (hookName pluginId : String) :
    Bool × HookTable :=
  match alookup t hookName with
  | none => (false, t)
  | some es =>
    if es.any (fun e => decide (e.1 = pluginId)) then
      (true,
       mapVals
         (fun h es' =>
           if h = hookName then es'.filter (fun e => !(decide (e.1 = pluginId)))
           else es') t)
    else (false, t)

/-- Embedding of `HookRegistry.unregister_all_hooks`: remove the plugin's
entry from every hook's inner dict. -/
def unregisterAllHooks (t : HookTable) (pluginId : String) : HookTable :=
  mapVals (fun _ es => es.filter (fun e => !(decide (e.1 = pluginId)))) t

/-- The `PluginRecord` stored in `PluginLoader.loaded_plugins`: its
manifest, source path, `enabled` flag, and the instance's `deactivate`
behaviour (the name/version/author/description/permissions entries of the
stored dict are copies drawn from the manifest and are not duplicated
here). -/
structure PluginRec where
  manifest : Manifest
  path : String
  enabled : Bool
  deact : DeactivateSpec

/-- Combined state of the loader, the hook registry and the signal traces
the embedded operations touch.  `invoked` is the trace of hook-callback
invocations (hook name, plugin id) performed by `trigger_hook`. -/
structure PluginSystem where
  plugins : List (String × PluginRec)
  hooks : HookTable
  invoked : List (String × String) := []
  pluginErrors : List (String × String) := []
  disabledEmits : List String := []
  unloadedEmits : List String := []

/-- Flips the `enabled` flag of one loaded plugin's record in place. -/
def setEnabled (ps : List (String × PluginRec)) (pluginId : String)
    (b : Bool) : List (String × PluginRec) :=
  mapVals (fun k r => if k = pluginId then { r with enabled := b } else r) ps

/-- Runs the plugin instance's `deactivate` method: `some b` is a normal
return of `b`, `none` a raised exception.  Only the sample-plugin
behaviour touches the hook registry (via `unregister_all_hooks`). -/
def runDeactivate (s : PluginSystem) (pluginId : String)
    (d : DeactivateSpec) : Option Bool × PluginSystem :=
  match d with
  | DeactivateSpec.plain => (some true, s)
  | DeactivateSpec.unregisterAll =>
      (some true, { s with hooks := unregisterAllHooks s.hooks pluginId })
  | DeactivateSpec.returnsFalse => (some false, s)
  | DeactivateSpec.raisesExc => (none, s)

/-- Embedding of `PluginLoader.deactivate_plugin`: not-loaded raises
(caught: `plugin_error` emitted, `False` returned); already-disabled is an
idempotent no-op returning `True`; otherwise the instance's `deactivate`
runs — a `True` return flips `enabled` off, a `False` return or an
exception leaves the state unchanged and emits `plugin_error`. -/
def deactivatePlugin (s : PluginSystem) (pluginId : String) :
    Bool × PluginSystem :=
  match alookup s.plugins pluginId with
  | none =>
    (false,
     { s with pluginErrors :=
        (s.pluginErrors ++ [(pluginId, "Error deactivating plugin")]) })
  | some r =>
    if r.enabled = false then (true, s)
    else
      match runDeactivate s pluginId r.deact with
      | (none, s') =>
        (false,
         { s' with pluginErrors :=
            (s'.pluginErrors ++ [(pluginId, "Error deactivating plugin")]) })
      | (some false, s') =>
        (false,
         { s' with pluginErrors :=
            (s'.pluginErrors ++ [(pluginId, "Plugin deactivation failed")]) })
      | (some true, s') =>
        (true, { s' with plugins := setEnabled s'.plugins pluginId false })

/-- Embedding of `PluginManager.disable_plugin`: delegate to the loader's
`deactivate_plugin` and emit the `plugin_disabled` signal on success. -/
def disablePlugin (s : PluginSystem) (pluginId : String) :
    Bool × PluginSystem :=
  let r := deactivatePlugin s pluginId
  if r.1 then
    (true, { r.2 with disabledEmits := r.2.disabledEmits ++ [pluginId] })
  else (false, r.2)

/-- One iteration of the dispatch loop in `HookRegistry.trigger_hook`:
invoke the callback; if it raises, log and ask the manager to disable the
offending plugin, then continue. -/
def triggerStep (s : PluginSystem) (hookName : String)
    (e : String × CallbackSpec) : PluginSystem :=
  let s1 : PluginSystem := { s with invoked := s.invoked ++ [(hookName, e.1)] }
  match e.2 with
  | CallbackSpec.ok => s1
  | CallbackSpec.raises => (disablePlugin s1 e.1).2

/-- Embedding of `HookRegistry.trigger_hook`: unknown hook names are
logged no-ops; otherwise the snapshot of registered (plugin, callback)
pairs is dispatched in insertion order through `triggerStep`. -/
def triggerHook (s : PluginSystem) (hookName : String) : PluginSystem :=
  match alookup s.hooks hookName with
  | none => s
  | some entries => entries.foldl (fun st e => triggerStep st hookName e) s

/-- Embedding of `PluginLoader.unload_plugin`: not-loaded raises (caught:
`plugin_error`, `False`); otherwise the plugin is deactivated first when
enabled (the deactivation result is ignored), its record is deleted and
`plugin_unloaded` is emitted. -/
def unloadPlugin (s : PluginSystem) (pluginId : String) :
    Bool × PluginSystem :=
  match alookup s.plugins pluginId with
  | none =>
    (false,
     { s with pluginErrors :=
        (s.pluginErrors ++ [(pluginId, "Error unloading plugin")]) })
  | some r =>
    let s1 := if r.enabled then (deactivatePlugin s pluginId).2 else s
    (true,
     { s1 with
        plugins := s1.plugins.filter (fun e => !(decide (e.1 = pluginId))),
        unloadedEmits := s1.unloadedEmits ++ [pluginId] })

/-- A plugin package on disk together with the outcome of the dynamic
steps of `PluginLoader.load_plugin`: the filesystem checks, whether the
manifest JSON parses, the parsed manifest, whether executing the module
succeeds, whether a `PluginBase` subclass is found, and the instantiated
plugin's `deactivate` behaviour. -/
structure PluginPackage where
  pathExists : Bool
  isDir : Bool
  hasInitFile : Bool
  hasManifestFile : Bool
  manifestParses : Bool
  manifest : Manifest
  moduleLoads : Bool
  hasPluginClass : Bool
  path : String
  deact : DeactivateSpec

/-- The `PluginRecord` that `load_plugin` stores for a package: `enabled`
starts `False`. -/
def mkRec (pkg : PluginPackage) : PluginRec :=
  { manifest := pkg.manifest, path := pkg.path, enabled := false,
    deact := pkg.deact }

/-- Embedding of `PluginLoader.load_plugin`.  Every failure is caught at
this boundary and returns `none` instead of raising; the `plugin_error`
signal is emitted only when the failure happens after the manifest id was
extracted (`plugin_id` is still `None` on the earlier paths, so the
`if plugin_id:` guard skips the emit).  A manifest id that is already
loaded returns the existing id without touching any state. -/
def loadPlugin (s : PluginSystem) (pkg : PluginPackage) :
    Option String × PluginSystem :=
  if pkg.pathExists = false then (none, s)
  else if pkg.isDir = false then (none, s)
  else if pkg.hasInitFile = false then (none, s)
  else if pkg.hasManifestFile = false then (none, s)
  else if pkg.manifestParses = false then (none, s)
  else
    match validateManifest pkg.manifest with
    | Except.error _ => (none, s)
    | Except.ok _ =>
      match alookup pkg.manifest "id" with
      | some (JValue.str pluginId) =>
        if (alookup s.plugins pluginId).isSome then (some pluginId, s)
        else if pkg.moduleLoads = false then
          (none,
           { s with pluginErrors :=
              (s.pluginErrors ++ [(pluginId, "Import error loading plugin")]) })
        else if pkg.hasPluginClass = false then
          (none,
           { s with pluginErrors :=
              (s.pluginErrors ++ [(pluginId, "Error loading plugin")]) })
        else
          (some pluginId,
           { s with plugins := s.plugins ++ [(pluginId, mkRec pkg)] })
      | _ => (none, s)

/-- The scan loop of `PluginManager._load_plugins` restricted to what the
claims observe: each candidate package is loaded through `load_plugin`,
and a failure on one package never stops the loop. -/
def scanPlugins (s : PluginSystem) (pkgs : List PluginPackage) :
    PluginSystem :=
  pkgs.foldl (fun st pkg => (loadPlugin st pkg).2) s

/-- State of `SecurityIntegration` that `check_permission` touches: the
permission cache keyed by the `f"plugin_id:permission"` string. -/
structure SecurityState where
  permissionCache : List (String × Bool) := []

/-- The cache key `f"plugin_id:permission"`. -/
def cacheKey (pluginId permission : String) : String :=
  pluginId ++ ":" ++ permission

/-- `plugin_info["manifest"].get("permissions", [])` for a validated
manifest: the permission list, empty when the key is absent. -/
def manifestPermissions (m : Manifest) : List JValue :=
  match alookup m "permissions" with
  | some (JValue.jlist ps) => ps
  | _ => []

/-- Python `permission in permissions` over the parsed JSON list: a string
element equal to `s` (equality with a non-string element is `False`). -/
def permContains (ps : List JValue) (s : String) : Bool :=
  ps.any fun q =>
    match q with
    | JValue.str t => t == s
    | _ => false

/-- The uncached verdict of `check_permission`: the permission itself or
the wildcard `"all"` appears in the manifest's permission list. -/
def hasPerm (m : Manifest) (permission : String) : Bool :=
  permContains (manifestPermissions m) permission ||
    permContains (manifestPermissions m) "all"

/-- Embedding of `SecurityIntegration.check_permission`: a cached answer is
returned unchanged; an unknown plugin yields `False` without caching;
otherwise the manifest is consulted and the verdict cached. -/
def checkPermission (plugins : List (String × PluginRec))
    (sec : SecurityState) (pluginId permission : String) :
    Bool × SecurityState :=
  match alookup sec.permissionCache (cacheKey pluginId permission) with
  | some b => (b, sec)
  | none =>
    match alookup plugins pluginId with
    | none => (false, sec)
    | some r =>
      let has := hasPerm r.manifest permission
      (has,
       { sec with permissionCache :=
          (aupsert sec.permissionCache (cacheKey pluginId permission) has) })

/-- Embedding of `SecurityIntegration.clear_permission_cache`. -/
def clearPermissionCache (sec : SecurityState) : SecurityState :=
  { sec with permissionCache := [] }

/-- Embedding of `SecurityIntegration.clear_permission_cache_for_plugin`:
delete every cache key starting with `f"plugin_id:"`. -/
def clearPermissionCacheForPlugin (sec : SecurityState) (pluginId : String) :
    SecurityState :=
  { sec with permissionCache :=
      (sec.permissionCache.filter
        (fun e => !(strStartsWith e.1 (pluginId ++ ":")))) }

/-!
## Hook vocabulary invariant (C8)
-/

/-- The hook-table mutations offered by the registry's public API. -/
inductive HookOp where
  | register (hookName pluginId : String) (cb : CallbackSpec)
  | unregister (hookName pluginId : String)
  | unregisterAll (pluginId : String)

/-- Apply one registry mutation to the hook table. -/
def applyHookOp (t : HookTable) : HookOp → HookTable
  | HookOp.register h p cb => (registerHook t h p cb).2
  | HookOp.unregister h p => (unregisterHook t h p).2
  | HookOp.unregisterAll p => unregisterAllHooks t p

/-- Apply a sequence of registry mutations in order. -/
def applyHookOps (t : HookTable) (ops : List HookOp) : HookTable :=
  ops.foldl applyHookOp t

theorem akeys_initHookTable : akeys initHookTable = availableHooks := by
  simp [initHookTable, akeys, List.map_map]
  rfl

theorem akeys_registerHook (t : HookTable) (h p : String) (cb : CallbackSpec) :
    akeys (registerHook t h p cb).2 = akeys t := by
  unfold registerHook
  cases alookup t h with
  | none => rfl
  | some es => simp [akeys_mapVals]

theorem akeys_unregisterHook (t : HookTable) (h p : String) :
    akeys (unregisterHook t h p).2 = akeys t := by
  unfold unregisterHook
  cases alookup t h with
  | none => rfl
  | some es =>
    by_cases hmem : es.any (fun e => decide (e.1 = p)) = true
    · simp [hmem, akeys_mapVals]
    · simp [hmem]

theorem akeys_unregisterAllHooks (t : HookTable) (p : String) :
    akeys (unregisterAllHooks t p) = akeys t := by
  simp [unregisterAllHooks, akeys_mapVals]

theorem akeys_applyHookOp (t : HookTable) (op : HookOp) :
    akeys (applyHookOp t op) = akeys t := by
  cases op with
  | register h p cb => exact akeys_registerHook t h p cb
  | unregister h p => exact akeys_unregisterHook t h p
  | unregisterAll p => exact akeys_unregisterAllHooks t p

theorem akeys_applyHookOps (t : HookTable) (ops : List HookOp) :
    akeys (applyHookOps t ops) = akeys t := by
  induction ops generalizing t with
  | nil => rfl
  | cons op rest ih =>
    show akeys (applyHookOps (applyHookOp t op) rest) = akeys t
    rw [ih, akeys_applyHookOp]

theorem akeys_hooks_deactivatePlugin (s : PluginSystem) (p : String) :
    akeys (deactivatePlugin s p).2.hooks = akeys s.hooks := by
  unfold deactivatePlugin
  cases alookup s.plugins p with
  | none => rfl
  | some r =>
    by_cases hen : r.enabled = false
    · simp [hen]
    · cases hd : r.deact <;>
        simp [hen, hd, runDeactivate, akeys_unregisterAllHooks]

theorem akeys_hooks_disablePlugin (s : PluginSystem) (p : String) :
    akeys (disablePlugin s p).2.hooks = akeys s.hooks := by
  unfold disablePlugin
  by_cases h : (deactivatePlugin s p).1 = true
  · simp only [h, if_true]
    exact akeys_hooks_deactivatePlugin s p
  · simp only [Bool.not_eq_true] at h
    simp only [h, Bool.false_eq_true, if_false]
    exact akeys_hooks_deactivatePlugin s p

theorem akeys_hooks_triggerStep (s : PluginSystem) (h : String)
    (e : String × CallbackSpec) :
    akeys (triggerStep s h e).hooks = akeys s.hooks := by
  unfold triggerStep
  cases e with
  | mk p cb =>
    cases cb with
    | ok => rfl
    | raises => exact akeys_hooks_disablePlugin _ p

theorem akeys_hooks_triggerFold (h : String)
    (l : List (String × CallbackSpec)) (s : PluginSystem) :
    akeys (l.foldl (fun st e => triggerStep st h e) s).hooks = akeys s.hooks := by
  induction l generalizing s with
  | nil => rfl
  | cons e rest ih =>
    show akeys (rest.foldl (fun st e => triggerStep st h e)
        (triggerStep s h e)).hooks = akeys s.hooks
    rw [ih, akeys_hooks_triggerStep]

/-- C8: starting from the initialized hook table, every sequence of
register/unregister operations leaves the key set equal to the fixed
vocabulary; registering an unknown hook name returns `False` and stores
nothing; triggering an unknown hook name is a no-op on the whole system;
and triggering never changes the hook table's key set. -/
theorem hook_vocabulary_invariant :
    (∀ ops, akeys (applyHookOps initHookTable ops) = availableHooks) ∧
    (∀ ops h p cb, h ∉ availableHooks →
      registerHook (applyHookOps initHookTable ops) h p cb =
        (false, applyHookOps initHookTable ops)) ∧
    (∀ (s : PluginSystem) (h : String), h ∉ akeys s.hooks →
      triggerHook s h = s) ∧
    (∀ (s : PluginSystem) (h : String),
      akeys (triggerHook s h).hooks = akeys s.hooks) := by
  refine ⟨?_, ?_, ?_, ?_⟩
  · intro ops
    rw [akeys_applyHookOps, akeys_initHookTable]
  · intro ops h p cb hnm
    have hkeys : h ∉ akeys (applyHookOps initHookTable ops) := by
      rw [akeys_applyHookOps, akeys_initHookTable]
      exact hnm
    have hnone : alookup (applyHookOps initHookTable ops) h = none :=
      (alookup_eq_none_iff _ h).2 hkeys
    unfold registerHook
    rw [hnone]
  · intro s h hnm
    have hnone : alookup s.hooks h = none := (alookup_eq_none_iff _ h).2 hnm
    unfold triggerHook
    rw [hnone]
  · intro s h
    unfold triggerHook
    cases hl : alookup s.hooks h with
    | none => rfl
    | some entries => exact akeys_hooks_triggerFold h entries s

/-- Witness for C8: with no prior operations, registering the unknown name
`notAHook` is a rejected no-op, and triggering it changes nothing. -/
theorem hook_vocabulary_invariant_witness :
    registerHook initHookTable "notAHook" "p1" CallbackSpec.ok =
      (false, initHookTable) ∧
    triggerHook { plugins := [], hooks := initHookTable } "notAHook" =
      { plugins := [], hooks := initHookTable } :=
  ⟨hook_vocabulary_invariant.2.1 [] "notAHook" "p1" CallbackSpec.ok (by decide),
   hook_vocabulary_invariant.2.2.1 { plugins := [], hooks := initHookTable }
     "notAHook"
     (by rw [akeys_initHookTable]; decide)⟩

/-!
## Fault-isolated hook dispatch (C1) and implicit hook unregistration (C7)
-/

theorem triggerStep_ok (s : PluginSystem) (h : String)
    (e : String × CallbackSpec) (he : e.2 = CallbackSpec.ok) :
    triggerStep s h e = { s with invoked := s.invoked ++ [(h, e.1)] } := by
  cases e with
  | mk p cb =>
    simp only at he
    subst he
    rfl

theorem triggerFold_ok (h : String) (l : List (String × CallbackSpec))
    (hl : ∀ e ∈ l, e.2 = CallbackSpec.ok) (s : PluginSystem) :
    l.foldl (fun st e => triggerStep st h e) s =
      { s with invoked := s.invoked ++ l.map (fun e => (h, e.1)) } := by
  induction l generalizing s with
  | nil => simp
  | cons e rest ih =>
    show rest.foldl (fun st e => triggerStep st h e) (triggerStep s h e) = _
    rw [triggerStep_ok s h e (hl e (List.mem_cons_self e rest)),
      ih (fun x hx => hl x (List.mem_cons_of_mem e hx))]
    simp

theorem alookup_setEnabled_self (ps : List (String × PluginRec)) (k : String)
    (r : PluginRec) (b : Bool) (hk : alookup ps k = some r) :
    alookup (setEnabled ps k b) k = some { r with enabled := b } := by
  simp [setEnabled, alookup_mapVals, hk]

theorem alookup_setEnabled_other (ps : List (String × PluginRec))
    (k q : String) (b : Bool) (hq : q ≠ k) :
    alookup (setEnabled ps k b) q = alookup ps q := by
  rw [setEnabled, alookup_mapVals]
  cases alookup ps q with
  | none => rfl
  | some r => simp [hq]

theorem disablePlugin_enabled_ok (s : PluginSystem) (k : String)
    (r : PluginRec) (hk : alookup s.plugins k = some r)
    (hen : r.enabled = true)
    (hd : r.deact = DeactivateSpec.plain ∨
      r.deact = DeactivateSpec.unregisterAll) :
    (disablePlugin s k).2.plugins = setEnabled s.plugins k false ∧
    (disablePlugin s k).2.invoked = s.invoked ∧
    (disablePlugin s k).2.disabledEmits = s.disabledEmits ++ [k] := by
  rcases hd with hd | hd <;>
    simp [disablePlugin, deactivatePlugin, hk, hen, hd, runDeactivate]

/-- C1: dispatching a known hook with N registered (plugin, callback)
pairs, of which exactly the pair for plugin `k` raises, still invokes all
N callbacks in stable insertion order; afterwards plugin `k` is disabled
through the manager's `disable_plugin` (its record's `enabled` flag is
`False` and `plugin_disabled` was emitted for it), while the `enabled`
flag of every other loaded plugin is unchanged.  The hypothesis on
`k`'s `deactivate` behaviour is the normal-return contract of
`PluginBase.deactivate` (return `True`), with or without the sample
plugins' hook cleanup. -/
theorem trigger_hook_fault_isolation (s : PluginSystem) (h k : String)
    (pre post : List (String × CallbackSpec)) (r : PluginRec)
    (hent : alookup s.hooks h = some (pre ++ (k, CallbackSpec.raises) :: post))
    (hpre : ∀ e ∈ pre, e.2 = CallbackSpec.ok)
    (hpost : ∀ e ∈ post, e.2 = CallbackSpec.ok)
    (hk : alookup s.plugins k = some r) (hen : r.enabled = true)
    (hd : r.deact = DeactivateSpec.plain ∨
      r.deact = DeactivateSpec.unregisterAll) :
    (triggerHook s h).invoked =
      s.invoked ++
        (pre ++ (k, CallbackSpec.raises) :: post).map (fun e => (h, e.1)) ∧
    (alookup (triggerHook s h).plugins k).map PluginRec.enabled = some false ∧
    (triggerHook s h).disabledEmits = s.disabledEmits ++ [k] ∧
    (∀ q, q ≠ k →
      (alookup (triggerHook s h).plugins q).map PluginRec.enabled =
        (alookup s.plugins q).map PluginRec.enabled) := by
  have htrig : triggerHook s h =
      (pre ++ (k, CallbackSpec.raises) :: post).foldl
        (fun st e => triggerStep st h e) s := by
    unfold triggerHook
    rw [hent]
  set spre : PluginSystem :=
    { s with invoked := s.invoked ++ pre.map (fun e => (h, e.1)) } with hspre
  set smid : PluginSystem :=
    { spre with invoked := spre.invoked ++ [(h, k)] } with hsmid
  have hmidk : alookup smid.plugins k = some r := hk
  have hmiden : r.enabled = true := hen
  obtain ⟨hdp, hdi, hde⟩ := disablePlugin_enabled_ok smid k r hmidk hmiden hd
  have hstep : triggerStep spre h (k, CallbackSpec.raises) =
      (disablePlugin smid k).2 := rfl
  have hfold : triggerHook s h =
      post.foldl (fun st e => triggerStep st h e) (disablePlugin smid k).2 := by
    rw [htrig, List.foldl_append, triggerFold_ok h pre hpre s, ← hspre]
    show List.foldl _ (triggerStep spre h (k, CallbackSpec.raises)) post = _
    rw [hstep]
  have hpostfold := triggerFold_ok h post hpost (disablePlugin smid k).2
  rw [hpostfold] at hfold
  refine ⟨?_, ?_, ?_, ?_⟩
  · rw [hfold]
    show (disablePlugin smid k).2.invoked ++ _ = _
    rw [hdi, hsmid]
    simp [List.append_assoc]
  · rw [hfold]
    show (alookup (disablePlugin smid k).2.plugins k).map PluginRec.enabled =
      some false
    rw [hdp]
    have : smid.plugins = s.plugins := rfl
    rw [this, alookup_setEnabled_self s.plugins k r false hk]
    rfl
  · rw [hfold]
    show (disablePlugin smid k).2.disabledEmits = _
    rw [hde]
  · intro q hq
    rw [hfold]
    show (alookup (disablePlugin smid k).2.plugins q).map PluginRec.enabled = _
    rw [hdp]
    have : smid.plugins = s.plugins := rfl
    rw [this, alookup_setEnabled_other s.plugins k q false hq]

/-- The record of plugin `p1` in the C1 witness scenario: enabled, with the
default `PluginBase.deactivate` behaviour. -/
def demoManifest : Manifest :=
  [("id", JValue.str "p1"), ("name", JValue.str "Plugin One"),
   ("version", JValue.str "1.0"), ("author", JValue.str "A"),
   ("description", JValue.str "d"),
   ("permissions", JValue.jlist [JValue.str "tabs"])]

def c1Rec1 : PluginRec :=
  { manifest := demoManifest, path := "/plugins/p1", enabled := true,
    deact := DeactivateSpec.plain }

def c1Rec2 : PluginRec :=
  { manifest := demoManifest, path := "/plugins/p2", enabled := true,
    deact := DeactivateSpec.plain }

/-- The C1 witness system: `p1` and `p2` both registered on
`onBrowserStart`, `p1`'s callback raising. -/
def c1Sys : PluginSystem :=
  { plugins := [("p1", c1Rec1), ("p2", c1Rec2)],
    hooks := [("onBrowserStart",
      [("p1", CallbackSpec.raises), ("p2", CallbackSpec.ok)])] }

/-- Witness for C1: both callbacks run in order, `p1` ends up disabled,
`p2` stays enabled. -/
theorem trigger_hook_fault_isolation_witness :
    (triggerHook c1Sys "onBrowserStart").invoked =
      [("onBrowserStart", "p1"), ("onBrowserStart", "p2")] ∧
    (alookup (triggerHook c1Sys "onBrowserStart").plugins "p1").map
      PluginRec.enabled = some false ∧
    (alookup (triggerHook c1Sys "onBrowserStart").plugins "p2").map
      PluginRec.enabled = some true := by
  obtain ⟨h1, h2, h3, h4⟩ := trigger_hook_fault_isolation c1Sys
    "onBrowserStart" "p1" [] [("p2", CallbackSpec.ok)] c1Rec1 rfl
    (by simp) (by decide) rfl rfl (Or.inl rfl)
  refine ⟨h1.trans (by rfl), h2, ?_⟩
  rw [h4 "p2" (by decide)]
  rfl

theorem unregisterAllHooks_no_entries (t : HookTable) (p h : String)
    (es : HookEntries) (hl : alookup (unregisterAllHooks t p) h = some es) :
    ∀ e ∈ es, e.1 ≠ p := by
  rw [unregisterAllHooks, alookup_mapVals] at hl
  cases ht : alookup t h with
  | none => rw [ht] at hl; exact absurd hl (by simp)
  | some es0 =>
    rw [ht, Option.map_some'] at hl
    injection hl with hl
    intro e he
    rw [← hl] at he
    have := List.of_mem_filter he
    simpa using this

theorem alookup_filter_out {α : Type} (l : List (String × α)) (k : String) :
    alookup (l.filter (fun e => !(decide (e.1 = k)))) k = none := by
  induction l with
  | nil => rfl
  | cons e rest ih =>
    by_cases hk : e.1 = k
    · simp [List.filter, hk, ih]
    · have hd : (!(decide (e.1 = k))) = true := by simp [hk]
      simp only [List.filter, hd, alookup, if_neg hk]
      exact ih

/-- The C7 scenario: one loaded, enabled plugin `p1` whose instance uses
the `PluginBase` default `deactivate` (returns `True`, touches nothing),
registered on `onBrowserStart` in the initialized hook table. -/
def c7Sys : PluginSystem :=
  { plugins := [("p1",
      { manifest := demoManifest, path := "/plugins/p1", enabled := true,
        deact := DeactivateSpec.plain })],
    hooks := (registerHook initHookTable "onBrowserStart" "p1"
      CallbackSpec.ok).2 }

/-- C7 counterexample: deactivating a plugin whose `deactivate` method is
the `PluginBase` default succeeds and flips `enabled` off, but its hook
registration survives — neither `deactivate_plugin` nor `unload_plugin`
ever touches the hook table, so the claim that the (hook, plugin) pair is
implicitly unregistered on disable/unload fails on this input. -/
theorem deactivate_keeps_hook_entries :
    (deactivatePlugin c7Sys "p1").1 = true ∧
    (alookup (deactivatePlugin c7Sys "p1").2.plugins "p1").map
      PluginRec.enabled = some false ∧
    alookup (deactivatePlugin c7Sys "p1").2.hooks "onBrowserStart" =
      some [("p1", CallbackSpec.ok)] ∧
    alookup (unloadPlugin c7Sys "p1").2.hooks "onBrowserStart" =
      some [("p1", CallbackSpec.ok)] := by
  refine ⟨rfl, rfl, rfl, rfl⟩

/-- C7 (amended): hook registrations are removed on deactivation or unload
only when the plugin's own `deactivate` method performs the cleanup, as the
sample plugins do by calling `unregister_all_hooks`; for such a plugin,
after `deactivate_plugin` (and likewise after `unload_plugin`) no hook in
the hook table has an entry for it.  The loader itself never unregisters,
so a plugin with the `PluginBase` default `deactivate` keeps its entries
(see the counterexample). -/
theorem deactivate_unregisters_via_plugin_cleanup (s : PluginSystem)
    (p : String) (r : PluginRec) (hk : alookup s.plugins p = some r)
    (hen : r.enabled = true) (hd : r.deact = DeactivateSpec.unregisterAll) :
    (deactivatePlugin s p).1 = true ∧
    (∀ h es, alookup (deactivatePlugin s p).2.hooks h = some es →
      ∀ e ∈ es, e.1 ≠ p) ∧
    (alookup (deactivatePlugin s p).2.plugins p).map PluginRec.enabled =
      some false ∧
    (∀ h es, alookup (unloadPlugin s p).2.hooks h = some es →
      ∀ e ∈ es, e.1 ≠ p) ∧
    alookup (unloadPlugin s p).2.plugins p = none := by
  have hdeq : deactivatePlugin s p =
      (true,
       { s with
          hooks := unregisterAllHooks s.hooks p,
          plugins := setEnabled s.plugins p false }) := by
    simp [deactivatePlugin, hk, hen, hd, runDeactivate]
  have huneq : (unloadPlugin s p).2 =
      { s with
         hooks := unregisterAllHooks s.hooks p,
         plugins := ((setEnabled s.plugins p false).filter
           (fun e => !(decide (e.1 = p)))),
         unloadedEmits := s.unloadedEmits ++ [p] } := by
    simp [unloadPlugin, hk, hen, hdeq]
  refine ⟨by rw [hdeq], ?_, ?_, ?_, ?_⟩
  · intro h es hl
    rw [hdeq] at hl
    exact unregisterAllHooks_no_entries s.hooks p h es hl
  · rw [hdeq]
    show (alookup (setEnabled s.plugins p false) p).map PluginRec.enabled =
      some false
    rw [alookup_setEnabled_self s.plugins p r false hk]
    rfl
  · intro h es hl
    rw [huneq] at hl
    exact unregisterAllHooks_no_entries s.hooks p h es hl
  · rw [huneq]
    exact alookup_filter_out (setEnabled s.plugins p false) p

/-- The record of the plugin in the C7 amended-theorem witness: enabled,
with the sample-plugin `deactivate` that unregisters all hooks. -/
def c7CleanRec : PluginRec :=
  { manifest := demoManifest, path := "/plugins/p1", enabled := true,
    deact := DeactivateSpec.unregisterAll }

/-- The C7 amended-theorem witness system. -/
def c7CleanSys : PluginSystem :=
  { plugins := [("p1", c7CleanRec)],
    hooks := (registerHook initHookTable "onBrowserStart" "p1"
      CallbackSpec.ok).2 }

/-- Witness for the C7 amended theorem: the same scenario as the
counterexample but with a sample-plugin-style `deactivate`; afterwards the
`onBrowserStart` entry for `p1` is gone. -/
theorem deactivate_unregisters_via_plugin_cleanup_witness :
    (deactivatePlugin c7CleanSys "p1").1 = true ∧
    (∀ es, alookup (deactivatePlugin c7CleanSys "p1").2.hooks
        "onBrowserStart" = some es → ∀ e ∈ es, e.1 ≠ "p1") :=
  ⟨(deactivate_unregisters_via_plugin_cleanup c7CleanSys "p1" c7CleanRec
      rfl rfl rfl).1,
   fun es hl =>
     (deactivate_unregisters_via_plugin_cleanup c7CleanSys "p1" c7CleanRec
       rfl rfl rfl).2.1 "onBrowserStart" es hl⟩

/-!
## Loader boundary behaviour (C6) and idempotent loading (C9)
-/

theorem loadPlugin_success_eq (s : PluginSystem) (pkg : PluginPackage)
    (pid : String) (h1 : pkg.pathExists = true) (h2 : pkg.isDir = true)
    (h3 : pkg.hasInitFile = true) (h4 : pkg.hasManifestFile = true)
    (h5 : pkg.manifestParses = true)
    (hv : validateManifest pkg.manifest = Except.ok ())
    (hid : alookup pkg.manifest "id" = some (JValue.str pid))
    (hnew : alookup s.plugins pid = none) (h6 : pkg.moduleLoads = true)
    (h7 : pkg.hasPluginClass = true) :
    loadPlugin s pkg =
      (some pid, { s with plugins := s.plugins ++ [(pid, mkRec pkg)] }) := by
  unfold loadPlugin
  rw [h1, h2, h3, h4, h5, hv, hid]
  simp [hnew, h6, h7]

theorem loadPlugin_early_failure (s : PluginSystem) (pkg : PluginPackage)
    (h : pkg.pathExists = false ∨ pkg.isDir = false ∨
      pkg.hasInitFile = false ∨ pkg.hasManifestFile = false ∨
      pkg.manifestParses = false ∨
      ∃ msg, validateManifest pkg.manifest = Except.error msg) :
    loadPlugin s pkg = (none, s) := by
  unfold loadPlugin
  by_cases c1 : pkg.pathExists = false
  · simp [c1]
  by_cases c2 : pkg.isDir = false
  · simp [c1, c2]
  by_cases c3 : pkg.hasInitFile = false
  · simp [c1, c2, c3]
  by_cases c4 : pkg.hasManifestFile = false
  · simp [c1, c2, c3, c4]
  by_cases c5 : pkg.manifestParses = false
  · simp [c1, c2, c3, c4, c5]
  rcases h with h | h | h | h | h | ⟨msg, hv⟩
  · exact absurd h c1
  · exact absurd h c2
  · exact absurd h c3
  · exact absurd h c4
  · exact absurd h c5
  · simp [c1, c2, c3, c4, c5, hv]

theorem filter_key_nil_of_alookup_none {α : Type} (l : List (String × α))
    (k : String) (h : alookup l k = none) :
    l.filter (fun e => decide (e.1 = k)) = [] := by
  induction l with
  | nil => rfl
  | cons e rest ih =>
    simp only [alookup] at h
    by_cases hk : e.1 = k
    · rw [if_pos hk] at h
      exact absurd h (by simp)
    · rw [if_neg hk] at h
      have hd : (decide (e.1 = k)) = false := by simp [hk]
      simp only [List.filter_cons, hd, Bool.false_eq_true, if_false]
      exact ih h

theorem loadPlugin_already_loaded (s : PluginSystem) (pkg : PluginPackage)
    (pid : String) (h1 : pkg.pathExists = true) (h2 : pkg.isDir = true)
    (h3 : pkg.hasInitFile = true) (h4 : pkg.hasManifestFile = true)
    (h5 : pkg.manifestParses = true)
    (hv : validateManifest pkg.manifest = Except.ok ())
    (hid : alookup pkg.manifest "id" = some (JValue.str pid))
    (hsome : (alookup s.plugins pid).isSome = true) :
    loadPlugin s pkg = (some pid, s) := by
  unfold loadPlugin
  rw [h1, h2, h3, h4, h5, hv, hid]
  simp [hsome]

theorem scanPlugins_skips_failures (s : PluginSystem)
    (bads : List PluginPackage) (hb : ∀ b ∈ bads, b.pathExists = false) :
    scanPlugins s bads = s := by
  induction bads generalizing s with
  | nil => rfl
  | cons b rest ih =>
    show scanPlugins (loadPlugin s b).2 rest = s
    rw [loadPlugin_early_failure s b
      (Or.inl (hb b (List.mem_cons_self b rest)))]
    exact ih s (fun x hx => hb x (List.mem_cons_of_mem b hx))

/-- C9: loading a plugin path whose manifest id is not yet loaded stores
exactly one record for that id, and a second `load_plugin` call for the
same manifest id returns the same id and leaves the state — in particular
the existing record — completely unchanged. -/
theorem load_plugin_idempotent (s : PluginSystem) (pkg : PluginPackage)
    (pid : String) (h1 : pkg.pathExists = true) (h2 : pkg.isDir = true)
    (h3 : pkg.hasInitFile = true) (h4 : pkg.hasManifestFile = true)
    (h5 : pkg.manifestParses = true)
    (hv : validateManifest pkg.manifest = Except.ok ())
    (hid : alookup pkg.manifest "id" = some (JValue.str pid))
    (hnew : alookup s.plugins pid = none) (h6 : pkg.moduleLoads = true)
    (h7 : pkg.hasPluginClass = true) :
    (loadPlugin s pkg).1 = some pid ∧
    (loadPlugin s pkg).2.plugins = s.plugins ++ [(pid, mkRec pkg)] ∧
    loadPlugin (loadPlugin s pkg).2 pkg = (some pid, (loadPlugin s pkg).2) ∧
    ((loadPlugin s pkg).2.plugins.filter
      (fun e => decide (e.1 = pid))).length = 1 := by
  have heq := loadPlugin_success_eq s pkg pid h1 h2 h3 h4 h5 hv hid hnew h6 h7
  have hlook : alookup (loadPlugin s pkg).2.plugins pid = some (mkRec pkg) := by
    rw [heq]
    exact alookup_append_self s.plugins pid (mkRec pkg) hnew
  refine ⟨by rw [heq], by rw [heq], ?_, ?_⟩
  · have := loadPlugin_already_loaded (loadPlugin s pkg).2 pkg pid h1 h2 h3
      h4 h5 hv hid (by rw [hlook]; rfl)
    exact this
  · rw [heq]
    show ((s.plugins ++ [(pid, mkRec pkg)]).filter
      (fun e => decide (e.1 = pid))).length = 1
    rw [List.filter_append, filter_key_nil_of_alookup_none s.plugins pid hnew]
    simp

/-- A concrete well-formed plugin package used by the loader witnesses. -/
def goodPkg : PluginPackage :=
  { pathExists := true, isDir := true, hasInitFile := true,
    hasManifestFile := true, manifestParses := true,
    manifest := demoManifest, moduleLoads := true, hasPluginClass := true,
    path := "/plugins/p1", deact := DeactivateSpec.plain }

/-- The empty initial system: no plugins loaded, hook table initialized. -/
def emptySys : PluginSystem := { plugins := [], hooks := initHookTable }

/-- Witness for C9: loading `goodPkg` twice from the empty system returns
`p1` both times and leaves a single record. -/
theorem load_plugin_idempotent_witness :
    (loadPlugin emptySys goodPkg).1 = some "p1" ∧
    loadPlugin (loadPlugin emptySys goodPkg).2 goodPkg =
      (some "p1", (loadPlugin emptySys goodPkg).2) ∧
    ((loadPlugin emptySys goodPkg).2.plugins.filter
      (fun e => decide (e.1 = "p1"))).length = 1 := by
  obtain ⟨w1, _, w3, w4⟩ := load_plugin_idempotent emptySys goodPkg "p1" rfl
    rfl rfl rfl rfl rfl rfl rfl rfl rfl
  exact ⟨w1, w3, w4⟩

/-- A package whose path does not exist: the first failure mode of
`load_plugin`. -/
def missingPkg : PluginPackage :=
  { pathExists := false, isDir := false, hasInitFile := false,
    hasManifestFile := false, manifestParses := false, manifest := [],
    moduleLoads := false, hasPluginClass := false, path := "/missing",
    deact := DeactivateSpec.plain }

/-- C6 counterexample: for a load failure of the path-not-found class,
`load_plugin` returns a failure value without raising, but it does NOT
report the failure through the `plugin_error` signal — `plugin_id` is
still `None` when the exception is caught, so the `if plugin_id:` guard
skips the emit and the error-signal trace stays empty, contrary to the
claim that every load failure is reported via the structured signal. -/
theorem load_missing_path_emits_no_signal :
    loadPlugin emptySys missingPkg = (none, emptySys) ∧
    (loadPlugin emptySys missingPkg).2.pluginErrors = [] := by
  exact ⟨rfl, rfl⟩

/-- C6 (amended): every load failure is caught at the `load_plugin`
boundary and returns a failure value (`None`) instead of raising, and a
failure on one plugin never aborts the scan of the remaining plugins; but
only the failures that occur after the manifest id is extracted (module
load error, no plugin class found) are reported via the `plugin_error`
signal — the earlier failures (path not found, not a directory, missing
entry point or manifest, unparseable or invalid manifest) return with no
signal emitted and no state change. -/
theorem load_plugin_error_boundary :
    (∀ (s : PluginSystem) (pkg : PluginPackage),
      pkg.pathExists = false ∨ pkg.isDir = false ∨
        pkg.hasInitFile = false ∨ pkg.hasManifestFile = false ∨
        pkg.manifestParses = false ∨
        (∃ msg, validateManifest pkg.manifest = Except.error msg) →
      loadPlugin s pkg = (none, s)) ∧
    (∀ (s : PluginSystem) (pkg : PluginPackage) (pid : String),
      pkg.pathExists = true → pkg.isDir = true → pkg.hasInitFile = true →
      pkg.hasManifestFile = true → pkg.manifestParses = true →
      validateManifest pkg.manifest = Except.ok () →
      alookup pkg.manifest "id" = some (JValue.str pid) →
      alookup s.plugins pid = none →
      (pkg.moduleLoads = false →
        loadPlugin s pkg =
          (none, { s with pluginErrors :=
            (s.pluginErrors ++ [(pid, "Import error loading plugin")]) })) ∧
      (pkg.moduleLoads = true → pkg.hasPluginClass = false →
        loadPlugin s pkg =
          (none, { s with pluginErrors :=
            (s.pluginErrors ++ [(pid, "Error loading plugin")]) }))) ∧
    (∀ (s : PluginSystem) (bads : List PluginPackage) (pkg : PluginPackage)
      (pid : String),
      (∀ b ∈ bads, b.pathExists = false) →
      pkg.pathExists = true → pkg.isDir = true → pkg.hasInitFile = true →
      pkg.hasManifestFile = true → pkg.manifestParses = true →
      validateManifest pkg.manifest = Except.ok () →
      alookup pkg.manifest "id" = some (JValue.str pid) →
      alookup s.plugins pid = none → pkg.moduleLoads = true →
      pkg.hasPluginClass = true →
      alookup (scanPlugins s (bads ++ [pkg])).plugins pid =
        some (mkRec pkg)) := by
  refine ⟨loadPlugin_early_failure, ?_, ?_⟩
  · intro s pkg pid h1 h2 h3 h4 h5 hv hid hnew
    constructor
    · intro hm
      unfold loadPlugin
      rw [h1, h2, h3, h4, h5, hv, hid]
      simp [hnew, hm]
    · intro hm hc
      unfold loadPlugin
      rw [h1, h2, h3, h4, h5, hv, hid]
      simp [hnew, hm, hc]
  · intro s bads pkg pid hb h1 h2 h3 h4 h5 hv hid hnew h6 h7
    have hscan : scanPlugins s (bads ++ [pkg]) = (loadPlugin s pkg).2 := by
      unfold scanPlugins
      rw [List.foldl_append]
      show scanPlugins (scanPlugins s bads) [pkg] = _
      rw [scanPlugins_skips_failures s bads hb]
      rfl
    rw [hscan, loadPlugin_success_eq s pkg pid h1 h2 h3 h4 h5 hv hid hnew h6 h7]
    exact alookup_append_self s.plugins pid (mkRec pkg) hnew

/-- A package whose manifest JSON fails to parse. -/
def badJsonPkg : PluginPackage :=
  { pathExists := true, isDir := true, hasInitFile := true,
    hasManifestFile := true, manifestParses := false, manifest := [],
    moduleLoads := false, hasPluginClass := false, path := "/plugins/bad",
    deact := DeactivateSpec.plain }

/-- A well-formed package whose module raises while executing. -/
def badModulePkg : PluginPackage :=
  { pathExists := true, isDir := true, hasInitFile := true,
    hasManifestFile := true, manifestParses := true,
    manifest := demoManifest, moduleLoads := false, hasPluginClass := false,
    path := "/plugins/p1", deact := DeactivateSpec.plain }

/-- Witness for the C6 amended theorem: with the manifest parse failing,
loading returns `None` and changes nothing; with a module that fails to
execute, the `plugin_error` signal carries the manifest id; and the scan
loads a good package that follows a missing one. -/
theorem load_plugin_error_boundary_witness :
    loadPlugin emptySys badJsonPkg = (none, emptySys) ∧
    (loadPlugin emptySys badModulePkg).2.pluginErrors =
      [("p1", "Import error loading plugin")] ∧
    alookup (scanPlugins emptySys [missingPkg, goodPkg]).plugins "p1" =
      some (mkRec goodPkg) := by
  refine ⟨?_, ?_, ?_⟩
  · exact load_plugin_error_boundary.1 emptySys badJsonPkg
      (Or.inr (Or.inr (Or.inr (Or.inr (Or.inl rfl)))))
  · rw [((load_plugin_error_boundary.2.1 emptySys badModulePkg "p1" rfl rfl
      rfl rfl rfl rfl rfl rfl).1 rfl)]
    rfl
  · exact load_plugin_error_boundary.2.2 emptySys [missingPkg] goodPkg "p1"
      (by intro b hb; simp only [List.mem_singleton] at hb; rw [hb]; rfl)
      rfl rfl rfl rfl rfl rfl rfl rfl rfl rfl

/-!
## Permission checking and the permission cache (C4, C10)
-/

theorem alookup_filter_false {α : Type} (l : List (String × α)) (k : String)
    (f : String × α → Bool) (hf : ∀ v, f (k, v) = false) :
    alookup (l.filter f) k = none := by
  induction l with
  | nil => rfl
  | cons e rest ih =>
    cases hfe : f e with
    | true =>
      simp only [List.filter_cons, hfe, if_true]
      simp only [alookup]
      by_cases hk : e.1 = k
      · exfalso
        have he : e = (k, e.2) := by
          cases e
          simp_all
        rw [he, hf e.2] at hfe
        exact Bool.false_ne_true hfe
      · rw [if_neg hk]
        exact ih
    | false =>
      simp only [List.filter_cons, hfe, Bool.false_eq_true, if_false]
      exact ih

theorem strStartsWith_cacheKey (pid perm : String) :
    strStartsWith (cacheKey pid perm) (pid ++ ":") = true := by
  have h : cacheKey pid perm = (pid ++ ":") ++ perm := rfl
  rw [h]
  exact strStartsWith_append (pid ++ ":") perm

/-- C4: for a loaded plugin, an uncached `check_permission` query answers
whether the permission (or the wildcard `"all"`) is in the plugin's
manifest permissions and memoizes that verdict under the
`plugin_id:permission` cache key; a cached verdict is returned unchanged
and without any state change, whatever the loader's current state — in
particular even if the manifest entry has changed — until
`clear_permission_cache` empties the cache or
`clear_permission_cache_for_plugin` drops the plugin's keys. -/
theorem check_permission_spec (plugins plugins' : List (String × PluginRec))
    (sec : SecurityState) (pid perm : String) :
    (∀ r, alookup sec.permissionCache (cacheKey pid perm) = none →
      alookup plugins pid = some r →
      checkPermission plugins sec pid perm =
        (hasPerm r.manifest perm,
         { sec with permissionCache :=
            (sec.permissionCache ++
              [(cacheKey pid perm, hasPerm r.manifest perm)]) })) ∧
    (∀ b, alookup sec.permissionCache (cacheKey pid perm) = some b →
      checkPermission plugins sec pid perm = (b, sec) ∧
      checkPermission plugins' sec pid perm = (b, sec)) ∧
    (clearPermissionCache sec).permissionCache = [] ∧
    alookup (clearPermissionCacheForPlugin sec pid).permissionCache
      (cacheKey pid perm) = none := by
  refine ⟨?_, ?_, rfl, ?_⟩
  · intro r hcache hr
    unfold checkPermission
    rw [hcache, hr]
    show (hasPerm r.manifest perm,
      ({ permissionCache :=
        (aupsert sec.permissionCache (cacheKey pid perm)
          (hasPerm r.manifest perm)) } : SecurityState)) = _
    rw [aupsert_of_alookup_none sec.permissionCache (cacheKey pid perm)
      (hasPerm r.manifest perm) hcache]
  · intro b hcache
    constructor <;> (unfold checkPermission; rw [hcache])
  · unfold clearPermissionCacheForPlugin
    exact alookup_filter_false sec.permissionCache (cacheKey pid perm) _
      (fun v => by simp [strStartsWith_cacheKey])

/-- The loaded record used by the C4 witness. -/
def c4Rec : PluginRec :=
  { manifest := demoManifest, path := "/plugins/p1", enabled := false,
    deact := DeactivateSpec.plain }

/-- The loader table used by the C4 witness. -/
def c4Plugins : List (String × PluginRec) := [("p1", c4Rec)]

/-- Witness for C4: a fresh query against the `tabs`-permissioned manifest
computes and caches the verdict; a pre-cached `true` is returned unchanged
from an empty loader table. -/
theorem check_permission_spec_witness :
    checkPermission c4Plugins { permissionCache := [] } "p1" "tabs" =
      (hasPerm c4Rec.manifest "tabs",
       { permissionCache :=
          [(cacheKey "p1" "tabs", hasPerm c4Rec.manifest "tabs")] }) ∧
    checkPermission []
      { permissionCache := [(cacheKey "p1" "tabs", true)] } "p1" "tabs" =
      (true, { permissionCache := [(cacheKey "p1" "tabs", true)] }) :=
  ⟨(check_permission_spec c4Plugins [] { permissionCache := [] } "p1"
      "tabs").1 c4Rec rfl rfl,
   ((check_permission_spec [] []
      { permissionCache := [(cacheKey "p1" "tabs", true)] } "p1"
      "tabs").2.1 true rfl).1⟩

/-- C10 (amended): for a plugin id with no loaded record AND no cached
entry for the queried (plugin, permission), `check_permission` returns
`False` and leaves the permission cache unchanged — the negative answer
for an unknown plugin is never memoized.  (The cache-miss hypothesis is
necessary: see the counterexample, where a stale cached entry of an
unloaded plugin is returned instead of `False`.) -/
theorem check_permission_unknown_uncached
    (plugins : List (String × PluginRec)) (sec : SecurityState)
    (pid perm : String)
    (hcache : alookup sec.permissionCache (cacheKey pid perm) = none)
    (hplug : alookup plugins pid = none) :
    checkPermission plugins sec pid perm = (false, sec) := by
  unfold checkPermission
  rw [hcache, hplug]

/-- Witness for the C10 amended theorem. -/
theorem check_permission_unknown_uncached_witness :
    checkPermission [] { permissionCache := [] } "ghost" "tabs" =
      (false, { permissionCache := [] }) :=
  check_permission_unknown_uncached [] { permissionCache := [] } "ghost"
    "tabs" rfl rfl

/-- The C10 counterexample system: `p1` loaded (disabled) with the `tabs`
permission. -/
def c10Sys : PluginSystem :=
  { plugins := [("p1", c4Rec)], hooks := initHookTable }

/-- The security state after one successful `check_permission` query for
`(p1, tabs)`: the verdict `true` is cached. -/
def c10Sec : SecurityState :=
  (checkPermission c10Sys.plugins { permissionCache := [] } "p1" "tabs").2

/-- The system after `p1` is unloaded; the permission cache is NOT
invalidated by `unload_plugin`. -/
def c10After : PluginSystem := (unloadPlugin c10Sys "p1").2

/-- C10 counterexample: after `p1` is unloaded, it has no loaded
`PluginRecord`, yet `check_permission("p1", "tabs")` returns the stale
cached `true` rather than `False` — the cache is consulted before the
loaded-plugin check, so the claim that an unknown plugin always gets
`False` fails on this reachable state. -/
theorem check_permission_stale_after_unload :
    alookup c10After.plugins "p1" = none ∧
    checkPermission c10After.plugins c10Sec "p1" "tabs" = (true, c10Sec) := by
  exact ⟨rfl, rfl⟩

end NebulaFusion
